import Mathlib

/-!
Verification of the hotel predictive-maintenance backend
(`Python Backend/models.py`, class `HotelMaintenanceModel`).

The embedding below translates the date parsing, device deduplication,
prediction and aggregation logic of `models.py` into executable Lean
definitions.  Python `datetime` values (always midnight-truncated where
they are compared) are represented by their proleptic-Gregorian day
number relative to 1970-01-01; float arithmetic on predictions is
represented by exact rationals; pandas `NaT` / missing values by
`Option`; raised exceptions by `Except`.  Ambient `datetime.now()`
data (current day, current calendar year) is passed explicitly as a
`Clock` argument.  Display-only string formatting (`strftime`) is
represented by the underlying day numbers.
-/

namespace PredMaint

/-- A calendar date as produced by `datetime.strptime` (year, month, day). -/
structure Date where
  year : Nat
  month : Nat
  day : Nat
deriving DecidableEq, Repr

/-- Gregorian leap-year test, as used by Python's `datetime`. -/
def isLeap (y : Nat) : Bool :=
  (y % 4 == 0 && y % 100 != 0) || y % 400 == 0

/-- Number of days in a month of a given year. -/
def daysInMonth (y m : Nat) : Nat :=
  if m = 2 then (if isLeap y then 29 else 28)
  else if m = 4 ∨ m = 6 ∨ m = 9 ∨ m = 11 then 30
  else 31

/-- Validity check performed by the `datetime` constructor: `strptime`
raises `ValueError` (caught by the format loop) on e.g. `02/30/2024`. -/
def validDate (d : Date) : Bool :=
  1 ≤ d.year && 1 ≤ d.month && d.month ≤ 12 && 1 ≤ d.day && d.day ≤ daysInMonth d.year d.month

/-- Days in the full months preceding month `m` of a non-leap year. -/
def cumDays (m : Nat) : Nat :=
  [0, 31, 59, 90, 120, 151, 181, 212, 243, 273, 304, 334].getD (m - 1) 0

/-- 0-based proleptic-Gregorian ordinal of a date (0001-01-01 ↦ 0),
mirroring `datetime.date.toordinal() - 1`. -/
def ordinal (d : Date) : Nat :=
  365 * (d.year - 1) + (d.year - 1) / 4 - (d.year - 1) / 100 + (d.year - 1) / 400
    + cumDays d.month + (if 2 < d.month && isLeap d.year then 1 else 0) + (d.day - 1)

/-- Day number of a date relative to 1970-01-01 (the representation of a
midnight `datetime`; comparison and `timedelta` arithmetic on midnight
`datetime`s is exactly integer arithmetic on this number). -/
def toDays (d : Date) : Int :=
  (ordinal d : Int) - 719162

/-! ### `strptime` for the six formats used throughout `models.py`

Python's `strptime` compiles each directive to a regex fragment:
`%m ↦ 1[0-2]|0[1-9]|[1-9]`, `%d ↦ 3[01]|[12]\d|0[1-9]|[1-9]`,
`%Y ↦ \d\d\d\d`, `%y ↦ \d\d` (≤ 68 ↦ 2000+, else 1900+), requires the
whole string to be consumed, and finally constructs the `datetime`
(which validates the day against the month).  The candidate lists below
reproduce the regex alternation order, with backtracking, on the
string's characters. -/

/-- Numeric value of a digit character. -/
def d0 (c : Char) : Nat := c.toNat - 48

/-- Candidate matches of the `%m` regex `1[0-2]|0[1-9]|[1-9]`, in
alternation-priority order, each with the unconsumed remainder. -/
def monthCands : List Char → List (Nat × List Char)
  | c1 :: c2 :: rest =>
      (if c1 = '1' ∧ '0' ≤ c2 ∧ c2 ≤ '2' then [(10 + d0 c2, rest)] else []) ++
      (if c1 = '0' ∧ '1' ≤ c2 ∧ c2 ≤ '9' then [(d0 c2, rest)] else []) ++
      (if '1' ≤ c1 ∧ c1 ≤ '9' then [(d0 c1, c2 :: rest)] else [])
  | [c1] => if '1' ≤ c1 ∧ c1 ≤ '9' then [(d0 c1, [])] else []
  | [] => []

/-- Candidate matches of the `%d` regex `3[01]|[12]\d|0[1-9]|[1-9]`. -/
def dayCands : List Char → List (Nat × List Char)
  | c1 :: c2 :: rest =>
      (if c1 = '3' ∧ '0' ≤ c2 ∧ c2 ≤ '1' then [(30 + d0 c2, rest)] else []) ++
      (if ('1' ≤ c1 ∧ c1 ≤ '2') ∧ c2.isDigit then [(10 * d0 c1 + d0 c2, rest)] else []) ++
      (if c1 = '0' ∧ '1' ≤ c2 ∧ c2 ≤ '9' then [(d0 c2, rest)] else []) ++
      (if '1' ≤ c1 ∧ c1 ≤ '9' then [(d0 c1, c2 :: rest)] else [])
  | [c1] => if '1' ≤ c1 ∧ c1 ≤ '9' then [(d0 c1, [])] else []
  | [] => []

/-- The `%Y` regex: exactly four digits. -/
def year4 : List Char → Option (Nat × List Char)
  | a :: b :: c :: d :: rest =>
      if a.isDigit ∧ b.isDigit ∧ c.isDigit ∧ d.isDigit then
        some (1000 * d0 a + 100 * d0 b + 10 * d0 c + d0 d, rest)
      else none
  | _ => none

/-- The `%y` regex: exactly two digits, with Python's century mapping. -/
def year2 : List Char → Option (Nat × List Char)
  | a :: b :: rest =>
      if a.isDigit ∧ b.isDigit then
        let v := 10 * d0 a + d0 b
        some ((if v ≤ 68 then 2000 + v else 1900 + v), rest)
      else none
  | _ => none

/-- Expect a literal separator character. -/
def lit (c : Char) : List Char → Option (List Char)
  | x :: rest => if x = c then some rest else none
  | [] => none

/-- First full regex match for a `first/sep/second/sep/year` pattern, where
the first two components range over candidate lists and the year is `%Y`
or `%y` (`yr`).  Returns `(firstVal, secondVal, yearVal)`. -/
def matchNNY (cands1 cands2 : List Char → List (Nat × List Char))
    (sep : Char) (yr : List Char → Option (Nat × List Char))
    (s : List Char) : Option (Nat × Nat × Nat) :=
  (cands1 s).findSome? fun p1 =>
    (lit sep p1.2).bind fun r1 =>
      (cands2 r1).findSome? fun p2 =>
        (lit sep p2.2).bind fun r2 =>
          match yr r2 with
          | some (y, []) => some (p1.1, p2.1, y)
          | _ => none

/-- First full regex match for `%Y-%m-%d`. -/
def matchYMD (s : List Char) : Option (Nat × Nat × Nat) :=
  (year4 s).bind fun p0 =>
    (lit '-' p0.2).bind fun r1 =>
      (monthCands r1).findSome? fun p1 =>
        (lit '-' p1.2).bind fun r2 =>
          (dayCands r2).findSome? fun p2 =>
            if p2.2 = [] then some (p0.1, p1.1, p2.1) else none

/-- The six date formats tried, in order, by every date-parsing loop in
`models.py` (`parse_date` inside `predict_for_room`, and the inline loops
of `get_device_details`, `get_dashboard_insights`,
`get_upcoming_maintenance_devices`, `get_current_week_maintenance_devices`):
`%m/%d/%Y`, `%m/%d/%y`, `%Y-%m-%d`, `%d-%m-%Y`, `%d/%m/%Y`, `%d/%m/%y`. -/
inductive DateFmt where
  | mdY | mdy | Ymd | dmYdash | dmY | dmy
deriving DecidableEq, Repr

/-- `datetime.strptime(s, fmt)` for one format: first full regex match,
then `datetime` construction (validity check); `none` is `ValueError`. -/
def strptime (f : DateFmt) (s : String) : Option Date :=
  let raw : Option (Nat × Nat × Nat) :=
    match f with
    | .mdY => matchNNY monthCands dayCands '/' year4 s.toList
    | .mdy => matchNNY monthCands dayCands '/' year2 s.toList
    | .Ymd => matchYMD s.toList
    | .dmYdash => matchNNY dayCands monthCands '-' year4 s.toList
    | .dmY => matchNNY dayCands monthCands '/' year4 s.toList
    | .dmy => matchNNY dayCands monthCands '/' year2 s.toList
  raw.bind fun t =>
    let d : Date :=
      match f with
      | .mdY | .mdy => ⟨t.2.2, t.1, t.2.1⟩
      | .Ymd => ⟨t.1, t.2.1, t.2.2⟩
      | .dmYdash | .dmY | .dmy => ⟨t.2.2, t.2.1, t.1⟩
    if validDate d then some d else none

/-- The ordered format list shared by all date-parsing loops. -/
def dateFormats : List DateFmt :=
  [.mdY, .mdy, .Ymd, .dmYdash, .dmY, .dmy]

/-- `parse_date` (`models.py`, inside `predict_for_room`, and the
identical inline loops elsewhere): try the formats in order, return the
first successful parse, `none` (pandas `NaT`) if all fail; never raises. -/
def parse_date (s : String) : Option Date :=
  dateFormats.findSome? fun f => strptime f s

/-- Parsed date as a day number (the form in which `models.py` compares
dates and adds `timedelta`s). -/
def parseDays (s : String) : Option Int :=
  (parse_date s).map toDays

/-! ### Data model and state -/

/-- One row of the loaded training DataFrame.  The three numeric
features are modelled as exact rationals; nullable columns
(`Status`, `Warranty Year`) as `Option`. -/
structure Row where
  roomNumber : Int
  applianceType : String
  lastMaintenanceDate : String
  usageHours : ℚ
  avgDailyUsage : ℚ
  deviceYear : ℚ
  status : Option String
  warrantyYear : Option Int
deriving DecidableEq, Repr

/-- The ambient `datetime.now()` data the methods consult: today's
midnight as a day number and the current calendar year. -/
structure Clock where
  todayDays : Int
  currentYear : Int
deriving DecidableEq, Repr

/-- `HotelMaintenanceModel` state: the (optional) fitted regressor as a
function from the three features to a predicted value, the loaded
DataFrame as a list of rows, and `loaded_file_path`, which is `none`
exactly when the attribute was never assigned (it is only assigned in
`load_hotel_data`). -/
structure ModelState where
  hotelModel : Option (ℚ × ℚ × ℚ → ℚ)
  loadedTrainingDf : List Row
  loadedFilePath : Option String

/-- Exceptions the modelled methods can raise. -/
inductive PyErr where
  | runtimeError
  | attributeError
deriving DecidableEq, Repr

/-- Decidable equality of `Except` results, for concrete evaluation. -/
instance {e a : Type} [DecidableEq e] [DecidableEq a] : DecidableEq (Except e a) := fun x y =>
  match x, y with
  | .ok u, .ok v => decidable_of_iff (u = v) (by simp)
  | .error u, .error v => decidable_of_iff (u = v) (by simp)
  | .ok _, .error _ => isFalse (by simp)
  | .error _, .ok _ => isFalse (by simp)

/-- The feature vector fed to the regressor for a row. -/
def features (r : Row) : ℚ × ℚ × ℚ :=
  (r.usageHours, r.avgDailyUsage, r.deviceYear)

/-- Clamped prediction `max(0, model.predict(...)[0])` for a row. -/
def clampedPred (reg : ℚ × ℚ × ℚ → ℚ) (r : Row) : ℚ :=
  max 0 (reg (features r))

/-- Round half to even of `100·q`, in integer arithmetic on the
numerator and denominator of `q` (`f` is `⌊100·q⌋`, and `2·r ≶ d`
compares the fractional part of `100·q` with one half). -/
def halfEven100 (q : ℚ) : ℤ :=
  let n := q.num * 100
  let d := (Int.ofNat q.den)
  let f := Int.fdiv n d
  let r := n - f * d
  if 2 * r < d then f
  else if d < 2 * r then f + 1
  else if f % 2 = 0 then f else f + 1

/-- Python 3 `round(x, 2)`: round `100·x` half to even, divide by 100. -/
def pyRound2 (q : ℚ) : ℚ :=
  Rat.divInt (halfEven100 q) 100

/-- Day number of `parsed + timedelta(days=pred)` truncated to midnight
(`pred ≥ 0`, so the `timedelta` contributes `⌊pred⌋` whole days). -/
def nextDays (reg : ℚ × ℚ × ℚ → ℚ) (r : Row) (p : Int) : Int :=
  p + (clampedPred reg r).floor

/-- `under_warranty` condition shared by all methods: warranty year
present and ≥ the current calendar year. -/
def warrantyOk (clock : Clock) (w : Option Int) : Bool :=
  match w with
  | some n => clock.currentYear ≤ n
  | none => false

/-! ### `drop_duplicates(subset=..., keep='first')` -/

/-- pandas `drop_duplicates(keep='first')` by a key: keep each element
whose key has not occurred earlier (`seen` accumulates keys). -/
def dedupKeepFirstAux {α β : Type} (key : α → β) [DecidableEq β]
    (seen : List β) : List α → List α
  | [] => []
  | x :: xs =>
      if key x ∈ seen then dedupKeepFirstAux key seen xs
      else x :: dedupKeepFirstAux key (key x :: seen) xs

/-- pandas `drop_duplicates(keep='first')` by a key. -/
def dedupKeepFirst {α β : Type} (key : α → β) [DecidableEq β] (l : List α) : List α :=
  dedupKeepFirstAux key [] l

/-! ### Device Resolver (`predict_for_room` dedup pipeline) -/

/-- A room row tagged with its original DataFrame index and its parsed
maintenance date (day number; `none` is `NaT`). -/
abbrev Dated := (Nat × Row) × Option Int

/-- Sort key: `NaT` below every date (pandas `sort_values` with
`na_position='last'` in a descending sort). -/
def rank (o : Option Int) : WithBot ℤ :=
  match o with
  | none => ⊥
  | some n => (n : WithBot ℤ)

/-- Descending-by-parsed-date order used by
`sort_values(by='Parsed_Maintenance_Date', ascending=False)`. -/
def datedRel (a b : Dated) : Prop :=
  rank b.2 ≤ rank a.2

instance : DecidableRel datedRel := fun a b =>
  inferInstanceAs (Decidable (rank b.2 ≤ rank a.2))

instance : IsTotal Dated datedRel :=
  ⟨fun a b => le_total (rank b.2) (rank a.2)⟩

instance : IsTrans Dated datedRel :=
  ⟨fun _ _ _ h1 h2 => le_trans h2 h1⟩

/-- Rows of the DataFrame belonging to a room, with original indices. -/
def roomRows (df : List Row) (room : Int) : List (Nat × Row) :=
  df.enum.filter fun p => p.2.roomNumber == room

/-- The dedup pipeline of `predict_for_room`: parse each room row's
date, sort descending by parsed date (`NaT` last), then
`drop_duplicates(subset=['Appliance Type'], keep='first')`. -/
def survivors (df : List Row) (room : Int) : List Dated :=
  dedupKeepFirst (fun p => p.1.2.applianceType)
    (List.insertionSort datedRel
      ((roomRows df room).map fun p => (p, parseDays p.2.lastMaintenanceDate)))

/-! ### Prediction Service -/

/-- One element of the list returned by `predict_for_room` (display-only
formatting carried as the underlying values; `warranty_year_till` as the
raw optional year). -/
structure PredEntry where
  deviceId : Nat
  roomNumber : Int
  deviceName : String
  issueReported : String
  underWarranty : String
  warrantyYearTill : Option Int
  prevMaintDays : Option Int
  predicted : ℚ
  nextMaintDays : Option Int
deriving DecidableEq, Repr

/-- Build one `predict_for_room` result entry from a surviving row. -/
def mkPredEntry (reg : ℚ × ℚ × ℚ → ℚ) (clock : Clock) (p : Dated) : PredEntry :=
  let row := p.1.2
  let pred := clampedPred reg row
  { deviceId := p.1.1 + 1
    roomNumber := row.roomNumber
    deviceName := row.applianceType
    issueReported := row.status.getD "None"
    underWarranty := if warrantyOk clock row.warrantyYear then "yes" else "no"
    warrantyYearTill := row.warrantyYear
    prevMaintDays := p.2
    predicted := pyRound2 pred
    nextMaintDays := p.2.map (· + pred.floor) }

/-- `HotelMaintenanceModel.predict_for_room`. -/
def predict_for_room (st : ModelState) (clock : Clock) (room : Int) :
    Except PyErr (List PredEntry) :=
  match st.hotelModel with
  | none => .error .runtimeError
  | some reg =>
      if st.loadedTrainingDf.isEmpty then .error .runtimeError
      else if (roomRows st.loadedTrainingDf room).isEmpty then .ok []
      else .ok ((survivors st.loadedTrainingDf room).map (mkPredEntry reg clock))

/-- The dictionary returned by `get_device_details` (empty dictionary
modelled as `none` at the call result). -/
structure DeviceInfo where
  roomNo : Int
  deviceId : Nat
  deviceName : String
  issueReported : String
  underWarranty : String
  warrantyYearTill : Option Int
  prevMaintDays : Option Int
  nextMaintDays : Option Int
deriving DecidableEq, Repr

/-- `HotelMaintenanceModel.get_device_details`: first row matching the
exact `(room, appliance type)` key; no match yields the empty dict. -/
def get_device_details (st : ModelState) (clock : Clock)
    (room : Int) (appliance : String) : Except PyErr (Option DeviceInfo) :=
  if st.loadedTrainingDf.isEmpty then .error .runtimeError
  else
    match st.hotelModel with
    | none => .error .runtimeError
    | some reg =>
        match st.loadedTrainingDf.enum.find? (fun p =>
            p.2.roomNumber == room && p.2.applianceType == appliance) with
        | none => .ok none
        | some (i, r) =>
            let pred := clampedPred reg r
            let parsed := parseDays r.lastMaintenanceDate
            .ok (some
              { roomNo := r.roomNumber
                deviceId := i + 1
                deviceName := r.applianceType
                issueReported := r.status.getD "None"
                underWarranty := if warrantyOk clock r.warrantyYear then "Yes" else "No"
                warrantyYearTill := r.warrantyYear
                prevMaintDays := parsed
                nextMaintDays := parsed.map (· + pred.floor) })

/-! ### Aggregation Engine -/

/-- One element of the `Pending_maintenance` list of the dashboard. -/
structure PendingEntry where
  roomNo : Int
  deviceId : Nat
  deviceName : String
  maintDateDays : Int
deriving DecidableEq, Repr

/-- The dashboard statistics dictionary. -/
structure DashboardData where
  totalDevices : Nat
  running : Nat
  down : Nat
  dueMaintenance : Nat
  underMaintenance : Int
  pending : List PendingEntry
  loadedDataFile : String
deriving DecidableEq, Repr

/-- `get_dashboard_insights` result: either the "not loaded" message
dictionary or the statistics dictionary. -/
inductive DashboardResult where
  | notLoaded
  | data (d : DashboardData)
deriving DecidableEq, Repr

/-- ASCII lower-casing of one character, as `str.lower` acts on the
(ASCII) status values. -/
def lowerChar (c : Char) : Char :=
  if 'A' ≤ c ∧ c ≤ 'Z' then Char.ofNat (c.toNat + 32) else c

/-- Substring test on character lists (Python's `in` on strings). -/
def containsSub (needle : List Char) : List Char → Bool
  | [] => needle.isEmpty
  | c :: t => needle.isPrefixOf (c :: t) || containsSub needle t

/-- `Status.astype(str).str.contains('Working', case=False, na=False)`
for one row: a missing status stringifies to `"nan"` which does not
contain `"working"`. -/
def statusWorking (s : Option String) : Bool :=
  match s with
  | some t => containsSub "working".toList (t.toList.map lowerChar)
  | none => false

/-- `total_devices`: length of
`df[['Room Number', 'Appliance Type']].drop_duplicates()`. -/
def total_devices_of (df : List Row) : Nat :=
  (dedupKeepFirst id (df.map fun r => (r.roomNumber, r.applianceType))).length

/-- The dashboard row step: a pending entry when the row's date parses
and its computed next-maintenance date is ≤ today. -/
def pendingStep (reg : ℚ × ℚ × ℚ → ℚ) (clock : Clock) (p : Nat × Row) :
    Option PendingEntry :=
  match parseDays p.2.lastMaintenanceDate with
  | none => none
  | some d =>
      if nextDays reg p.2 d ≤ clock.todayDays then
        some ⟨p.2.roomNumber, p.1 + 1, p.2.applianceType, nextDays reg p.2 d⟩
      else none

/-- `HotelMaintenanceModel.get_dashboard_insights`.  Building the result
dictionary reads `self.loaded_file_path`, which raises `AttributeError`
when the attribute was never assigned; the early "not loaded" return
does not touch it. -/
def get_dashboard_insights (st : ModelState) (clock : Clock) :
    Except PyErr DashboardResult :=
  match st.hotelModel with
  | none => .ok .notLoaded
  | some reg =>
      if st.loadedTrainingDf.isEmpty then .ok .notLoaded
      else
        let running := (st.loadedTrainingDf.filter fun r => statusWorking r.status).length
        let down := st.loadedTrainingDf.length - running
        let pending := st.loadedTrainingDf.enum.filterMap (pendingStep reg clock)
        let due := pending.length
        match st.loadedFilePath with
        | none => .error .attributeError
        | some path =>
            .ok (.data
              { totalDevices := total_devices_of st.loadedTrainingDf
                running := running
                down := down
                dueMaintenance := due
                underMaintenance := max 0 ((down : Int) - due)
                pending := pending
                loadedDataFile := path })

/-- One element of the upcoming / current-week lists. -/
structure UpcomingEntry where
  roomNo : Int
  deviceId : Nat
  deviceName : String
  issueReported : String
  underWarranty : String
  warrantyYearTill : Option Int
  prevMaintDays : Int
  predicted : ℚ
  nextMaintDays : Int
deriving DecidableEq, Repr

/-- Build an upcoming/weekly entry for a row whose date parsed to `d`. -/
def mkUpcomingEntry (reg : ℚ × ℚ × ℚ → ℚ) (clock : Clock)
    (p : Nat × Row) (d : Int) : UpcomingEntry :=
  let pred := clampedPred reg p.2
  { roomNo := p.2.roomNumber
    deviceId := p.1 + 1
    deviceName := p.2.applianceType
    issueReported := p.2.status.getD "None"
    underWarranty := if warrantyOk clock p.2.warrantyYear then "yes" else "no"
    warrantyYearTill := p.2.warrantyYear
    prevMaintDays := d
    predicted := pyRound2 pred
    nextMaintDays := nextDays reg p.2 d }

/-- `HotelMaintenanceModel.get_upcoming_maintenance_devices`: rows with
a parseable date and `today < next ≤ today + 182`. -/
def get_upcoming_maintenance_devices (st : ModelState) (clock : Clock) :
    Except PyErr (List UpcomingEntry) :=
  match st.hotelModel with
  | none => .error .runtimeError
  | some reg =>
      if st.loadedTrainingDf.isEmpty then .error .runtimeError
      else
        .ok (st.loadedTrainingDf.enum.filterMap fun p =>
          match parseDays p.2.lastMaintenanceDate with
          | none => none
          | some d =>
              if clock.todayDays < nextDays reg p.2 d ∧
                  nextDays reg p.2 d ≤ clock.todayDays + 182 then
                some (mkUpcomingEntry reg clock p d)
              else none)

/-- `today.weekday()` (Monday = 0) for a day number (1970-01-01 was a
Thursday, weekday 3). -/
def weekdayOf (n : Int) : Int :=
  (n + 3).emod 7

/-- `HotelMaintenanceModel.get_current_week_maintenance_devices`: rows
with a parseable date whose computed next-maintenance date lies in the
current Monday-to-Sunday week; unparseable rows are skipped (`continue`).
The window test does not compare the date with `today` itself. -/
def get_current_week_maintenance_devices (st : ModelState) (clock : Clock) :
    Except PyErr (List UpcomingEntry) :=
  match st.hotelModel with
  | none => .error .runtimeError
  | some reg =>
      if st.loadedTrainingDf.isEmpty then .error .runtimeError
      else
        let startOfWeek := clock.todayDays - weekdayOf clock.todayDays
        let endOfWeek := startOfWeek + 6
        .ok (st.loadedTrainingDf.enum.filterMap fun p =>
          match parseDays p.2.lastMaintenanceDate with
          | none => none
          | some d =>
              if startOfWeek ≤ nextDays reg p.2 d ∧ nextDays reg p.2 d ≤ endOfWeek then
                some (mkUpcomingEntry reg clock p d)
              else none)

/-! ### Dataset Loader schema validation -/

/-- `train_model`'s required columns, in declaration order:
`features + [target] + required_lookup_cols`. -/
def trainRequiredCols : List String :=
  ["Usage Hours", "Average_Daily_Usage", "Device_Year",
   "Days Since Maintenance",
   "Room Number", "Appliance Type", "Last Maintenance Date", "Status", "Warranty Year"]

/-- `load_hotel_data`'s `required_cols`, in declaration order. -/
def loadRequiredCols : List String :=
  ["Room Number", "Appliance Type", "Last Maintenance Date", "Usage Hours",
   "Days Since Maintenance", "Average_Daily_Usage", "Device_Year", "Status", "Warranty Year"]

/-- `[col for col in required if col not in df.columns]`. -/
def missingCols (required cols : List String) : List String :=
  required.filter fun c => !(cols.contains c)

/-- The column validation of `train_model` (`models.py` lines 81-83):
raises `ValueError` naming the missing columns when any required column
is absent from the DataFrame's columns. -/
def validateTrainCols (cols : List String) : Except (List String) Unit :=
  if (missingCols trainRequiredCols cols).isEmpty then .ok ()
  else .error (missingCols trainRequiredCols cols)

/-- The column validation of `load_hotel_data` (lines 576-578). -/
def validateLoadCols (cols : List String) : Except (List String) Unit :=
  if (missingCols loadRequiredCols cols).isEmpty then .ok ()
  else .error (missingCols loadRequiredCols cols)

/-! ### Lemmas about `drop_duplicates(keep='first')` -/

section DedupLemmas

variable {α β : Type} (key : α → β) [DecidableEq β]

theorem mem_of_mem_dedupAux {seen : List β} {l : List α} {a : α}
    (h : a ∈ dedupKeepFirstAux key seen l) : a ∈ l := by
  induction l generalizing seen with
  | nil => simp [dedupKeepFirstAux] at h
  | cons x xs ih =>
      by_cases hx : key x ∈ seen
      · simp only [dedupKeepFirstAux, if_pos hx] at h
        exact List.mem_cons_of_mem _ (ih h)
      · simp only [dedupKeepFirstAux, if_neg hx, List.mem_cons] at h
        rcases h with rfl | h
        · exact List.mem_cons_self _ _
        · exact List.mem_cons_of_mem _ (ih h)

theorem key_mem_dedupAux {seen : List β} {l : List α} {b : β} :
    b ∈ (dedupKeepFirstAux key seen l).map key ↔ b ∉ seen ∧ b ∈ l.map key := by
  induction l generalizing seen with
  | nil => simp [dedupKeepFirstAux]
  | cons x xs ih =>
      by_cases hx : key x ∈ seen
      · simp only [dedupKeepFirstAux, if_pos hx, ih, List.map_cons, List.mem_cons]
        constructor
        · rintro ⟨hb, hmem⟩; exact ⟨hb, Or.inr hmem⟩
        · rintro ⟨hb, hb' | hmem⟩
          · exact absurd (hb' ▸ hx) hb
          · exact ⟨hb, hmem⟩
      · simp only [dedupKeepFirstAux, if_neg hx, List.map_cons, List.mem_cons, ih]
        by_cases hbx : b = key x
        · subst hbx; simp [hx]
        · simp [hbx, List.mem_cons]

theorem nodup_keys_dedupAux {seen : List β} {l : List α} :
    ((dedupKeepFirstAux key seen l).map key).Nodup := by
  induction l generalizing seen with
  | nil => simp [dedupKeepFirstAux]
  | cons x xs ih =>
      by_cases hx : key x ∈ seen
      · simpa only [dedupKeepFirstAux, if_pos hx] using ih
      · simp only [dedupKeepFirstAux, if_neg hx, List.map_cons, List.nodup_cons]
        refine ⟨fun hmem => ?_, ih⟩
        exact ((key_mem_dedupAux key).mp hmem).1 (List.mem_cons_self _ _)

/-- In the deduplication of a list sorted by a relation `R`, every kept
element is `R`-above every same-keyed element of the input. -/
theorem dedupAux_max {R : α → α → Prop} {seen : List β} {l : List α}
    (hs : List.Sorted R l) {x y : α}
    (hx : x ∈ dedupKeepFirstAux key seen l) (hy : y ∈ l)
    (hk : key y = key x) : x = y ∨ R x y := by
  induction l generalizing seen with
  | nil => cases hy
  | cons z zs ih =>
      have hz : ∀ w ∈ zs, R z w := List.rel_of_sorted_cons hs
      have hs' : List.Sorted R zs := hs.of_cons
      by_cases hzx : key z ∈ seen
      · simp only [dedupKeepFirstAux, if_pos hzx] at hx
        rcases List.mem_cons.mp hy with rfl | hy'
        · have : key x ∉ seen :=
            ((key_mem_dedupAux key).mp (List.mem_map_of_mem key hx)).1
          exact absurd (hk ▸ hzx) this
        · exact ih hs' hx hy'
      · simp only [dedupKeepFirstAux, if_neg hzx, List.mem_cons] at hx
        rcases hx with rfl | hx'
        · rcases List.mem_cons.mp hy with rfl | hy'
          · exact Or.inl rfl
          · exact Or.inr (hz y hy')
        · have hxk : key x ∉ key z :: seen :=
            ((key_mem_dedupAux key).mp (List.mem_map_of_mem key hx')).1
          rcases List.mem_cons.mp hy with rfl | hy'
          · exact absurd (by rw [← hk]; exact List.mem_cons_self _ _) hxk
          · exact ih hs' hx' hy'

theorem length_dedupAux {seen : List β} {l : List α} :
    (dedupKeepFirstAux key seen l).length
      = ((l.map key).toFinset \ seen.toFinset).card := by
  induction l generalizing seen with
  | nil => simp [dedupKeepFirstAux]
  | cons x xs ih =>
      by_cases hx : key x ∈ seen
      · rw [dedupKeepFirstAux, if_pos hx, ih]
        congr 1
        ext b
        simp only [Finset.mem_sdiff, List.map_cons, List.toFinset_cons, Finset.mem_insert,
          List.mem_toFinset]
        constructor
        · rintro ⟨hb, hbs⟩; exact ⟨Or.inr hb, hbs⟩
        · rintro ⟨hb | hb, hbs⟩
          · exact absurd (hb ▸ hx) (by simpa using hbs)
          · exact ⟨hb, hbs⟩
      · rw [dedupKeepFirstAux, if_neg hx, List.length_cons, ih]
        have hset : ((x :: xs).map key).toFinset \ seen.toFinset
            = insert (key x) ((xs.map key).toFinset \ (key x :: seen).toFinset) := by
          ext b
          simp only [List.map_cons, List.toFinset_cons, Finset.mem_sdiff, Finset.mem_insert,
            List.mem_toFinset, List.mem_cons]
          by_cases hbx : b = key x
          · subst hbx; simp [hx]
          · simp [hbx]
        rw [hset, Finset.card_insert_of_not_mem]
        simp

theorem length_dedupKeepFirst (l : List α) :
    (dedupKeepFirst key l).length = (l.map key).toFinset.card := by
  rw [dedupKeepFirst, length_dedupAux]
  simp

end DedupLemmas

/-- `round(x, 2)` of a nonnegative value is nonnegative. -/
theorem pyRound2_nonneg {q : ℚ} (h : 0 ≤ q) : 0 ≤ pyRound2 q := by
  have hnum : (0 : ℤ) ≤ q.num := Rat.num_nonneg.mpr h
  have hf : (0 : ℤ) ≤ Int.fdiv (q.num * 100) (Int.ofNat q.den) :=
    Int.fdiv_nonneg (by positivity) (Int.ofNat_nonneg _)
  have hhe : (0 : ℤ) ≤ halfEven100 q := by
    unfold halfEven100
    dsimp only
    split_ifs <;> omega
  unfold pyRound2
  exact Rat.divInt_nonneg hhe (by norm_num)

/-- The clamped prediction is nonnegative for every regressor output. -/
theorem clampedPred_nonneg (reg : ℚ × ℚ × ℚ → ℚ) (r : Row) :
    0 ≤ clampedPred reg r :=
  le_max_left 0 _

/-- The second component of an `enum` element is an element of the list. -/
theorem snd_mem_of_mem_enum {α : Type} {l : List α} {p : Nat × α}
    (h : p ∈ l.enum) : p.2 ∈ l := by
  rw [← List.enum_map_snd l]
  exact List.mem_map_of_mem Prod.snd h

/-- Every list element occurs in `enum` at some index. -/
theorem exists_mem_enum_of_mem {α : Type} {l : List α} {a : α}
    (h : a ∈ l) : ∃ i, (i, a) ∈ l.enum := by
  obtain ⟨i, hi, hgt⟩ := List.mem_iff_getElem.mp h
  exact ⟨i, List.mk_mem_enum_iff_getElem?.mpr (by simp [List.getElem?_eq_getElem hi, hgt])⟩

/-- `enum` holds one element per index. -/
theorem enum_index_inj {α : Type} {l : List α} {i : Nat} {a b : α}
    (ha : (i, a) ∈ l.enum) (hb : (i, b) ∈ l.enum) : a = b := by
  have ha' := List.mk_mem_enum_iff_getElem?.mp ha
  have hb' := List.mk_mem_enum_iff_getElem?.mp hb
  rw [ha'] at hb'
  exact Option.some_inj.mp hb'

/-! ## The claims -/

/-- C2: The date parser tries exactly the ordered format list
`%m/%d/%Y`, `%m/%d/%y`, `%Y-%m-%d`, `%d-%m-%Y`, `%d/%m/%Y`, `%d/%m/%y`
and returns the first successful parse; hence `"03/04/2024"` parses as
month 3, day 4; every input that matches no format yields the
no-date sentinel (`none`), and the parser is total (never raises). -/
theorem C2_date_format_precedence :
    parse_date "03/04/2024" = some ⟨2024, 3, 4⟩ ∧
    (∀ s : String, (∀ f ∈ dateFormats, strptime f s = none) → parse_date s = none) ∧
    (∀ s : String, ∀ i : Fin dateFormats.length, ∀ d : Date,
      strptime (dateFormats.get i) s = some d →
      (∀ j : Fin dateFormats.length, (j : ℕ) < (i : ℕ) → strptime (dateFormats.get j) s = none) →
      parse_date s = some d) := by
  refine ⟨by decide, ?_, ?_⟩
  · intro s h
    rw [parse_date, List.findSome?_eq_none_iff]
    exact h
  · intro s i d hd hj
    fin_cases i
    · simp only [List.get] at hd
      simp [parse_date, dateFormats, List.findSome?_cons, hd]
    · have h0 := hj ⟨0, by norm_num [dateFormats]⟩ (by norm_num)
      simp only [List.get] at hd h0
      simp [parse_date, dateFormats, List.findSome?_cons, h0, hd]
    · have h0 := hj ⟨0, by norm_num [dateFormats]⟩ (by norm_num)
      have h1 := hj ⟨1, by norm_num [dateFormats]⟩ (by norm_num)
      simp only [List.get] at hd h0 h1
      simp [parse_date, dateFormats, List.findSome?_cons, h0, h1, hd]
    · have h0 := hj ⟨0, by norm_num [dateFormats]⟩ (by norm_num)
      have h1 := hj ⟨1, by norm_num [dateFormats]⟩ (by norm_num)
      have h2 := hj ⟨2, by norm_num [dateFormats]⟩ (by norm_num)
      simp only [List.get] at hd h0 h1 h2
      simp [parse_date, dateFormats, List.findSome?_cons, h0, h1, h2, hd]
    · have h0 := hj ⟨0, by norm_num [dateFormats]⟩ (by norm_num)
      have h1 := hj ⟨1, by norm_num [dateFormats]⟩ (by norm_num)
      have h2 := hj ⟨2, by norm_num [dateFormats]⟩ (by norm_num)
      have h3 := hj ⟨3, by norm_num [dateFormats]⟩ (by norm_num)
      simp only [List.get] at hd h0 h1 h2 h3
      simp [parse_date, dateFormats, List.findSome?_cons, h0, h1, h2, h3, hd]
    · have h0 := hj ⟨0, by norm_num [dateFormats]⟩ (by norm_num)
      have h1 := hj ⟨1, by norm_num [dateFormats]⟩ (by norm_num)
      have h2 := hj ⟨2, by norm_num [dateFormats]⟩ (by norm_num)
      have h3 := hj ⟨3, by norm_num [dateFormats]⟩ (by norm_num)
      have h4 := hj ⟨4, by norm_num [dateFormats]⟩ (by norm_num)
      simp only [List.get] at hd h0 h1 h2 h3 h4
      simp [parse_date, dateFormats, List.findSome?_cons, h0, h1, h2, h3, h4, hd]

/-- C2 witness: the third format (`%Y-%m-%d`) wins once the first two
fail, at a concrete input. -/
theorem C2_date_format_precedence_witness :
    parse_date "2024-11-30" = some ⟨2024, 11, 30⟩ :=
  C2_date_format_precedence.2.2 "2024-11-30" ⟨2, by norm_num [dateFormats]⟩ ⟨2024, 11, 30⟩
    (by decide)
    (by
      intro j hj
      have hj' : (j : ℕ) < 2 := hj
      have h01 : (j : ℕ) = 0 ∨ (j : ℕ) = 1 := by omega
      rcases h01 with h | h
      · have : j = ⟨0, by norm_num [dateFormats]⟩ := Fin.ext h
        subst this; decide
      · have : j = ⟨1, by norm_num [dateFormats]⟩ := Fin.ext h
        subst this; decide)

/-- Column set used in the C5 counterexample: the training schema
minus `Usage Hours` and `Appliance Type`. -/
def colsC5 : List String :=
  ["Room Number", "Last Maintenance Date", "Days Since Maintenance",
   "Average_Daily_Usage", "Device_Year", "Status", "Warranty Year"]

/-- C5 counterexample: on a table missing `Usage Hours` and
`Appliance Type`, `train_model`'s validation names the missing columns
in schema-declaration order `["Usage Hours", "Appliance Type"]`, which
is not sorted. -/
theorem C5_counterexample :
    validateTrainCols colsC5 = .error ["Usage Hours", "Appliance Type"] ∧
    ¬ List.Sorted (· ≤ ·) (["Usage Hours", "Appliance Type"] : List String) := by
  refine ⟨rfl, fun h => ?_⟩
  have hle : ("Usage Hours" : String) ≤ "Appliance Type" :=
    List.rel_of_sorted_cons h _ (List.mem_cons_self _ _)
  have hlt : ("Appliance Type" : String) < "Usage Hours" := by
    rw [String.lt_iff_toList_lt]
    decide
  exact absurd hle (not_le.mpr hlt)

/-- C5 (amended): training and hotel-dataset-selection validation fail
iff a required column is missing, and the reported list names exactly
the missing columns, each once, in schema-declaration order (a sublist
of the declared column list) — not in sorted order. -/
theorem C5_missing_columns (cols : List String) :
    (validateTrainCols cols = .ok () ↔ ∀ c ∈ trainRequiredCols, c ∈ cols) ∧
    (∀ m, validateTrainCols cols = .error m →
      (∀ c, c ∈ m ↔ c ∈ trainRequiredCols ∧ c ∉ cols) ∧
      m.Nodup ∧ m.Sublist trainRequiredCols ∧ m ≠ []) ∧
    (validateLoadCols cols = .ok () ↔ ∀ c ∈ loadRequiredCols, c ∈ cols) ∧
    (∀ m, validateLoadCols cols = .error m →
      (∀ c, c ∈ m ↔ c ∈ loadRequiredCols ∧ c ∉ cols) ∧
      m.Nodup ∧ m.Sublist loadRequiredCols ∧ m ≠ []) := by
  have hmem : ∀ required : List String, ∀ c,
      c ∈ missingCols required cols ↔ c ∈ required ∧ c ∉ cols := by
    intro required c
    simp [missingCols, List.mem_filter, List.contains, List.elem_eq_mem]
  have hempty : ∀ required : List String,
      (missingCols required cols).isEmpty = true ↔ ∀ c ∈ required, c ∈ cols := by
    intro required
    rw [List.isEmpty_iff, List.eq_nil_iff_forall_not_mem]
    constructor
    · intro h c hc
      by_contra hcc
      exact h c ((hmem required c).mpr ⟨hc, hcc⟩)
    · intro h c hc
      obtain ⟨hc1, hc2⟩ := (hmem required c).mp hc
      exact hc2 (h c hc1)
  have herr : ∀ required : List String, ∀ m,
      (if (missingCols required cols).isEmpty then (Except.ok () : Except (List String) Unit)
        else .error (missingCols required cols)) = .error m →
      m = missingCols required cols ∧ (missingCols required cols).isEmpty = false := by
    intro required m h
    by_cases hc : (missingCols required cols).isEmpty
    · rw [if_pos hc] at h; exact absurd h (by simp)
    · rw [if_neg hc] at h
      exact ⟨(Except.error.injEq _ _).mp h |>.symm, by simpa using hc⟩
  have hok : ∀ required : List String,
      (if (missingCols required cols).isEmpty then (Except.ok () : Except (List String) Unit)
        else .error (missingCols required cols)) = .ok () ↔
      ∀ c ∈ required, c ∈ cols := by
    intro required
    rw [← hempty required]
    by_cases hc : (missingCols required cols).isEmpty
    · simp [hc]
    · simp [hc]
  refine ⟨hok trainRequiredCols, ?_, hok loadRequiredCols, ?_⟩
  · intro m hm
    obtain ⟨rfl, hne⟩ := herr trainRequiredCols m hm
    refine ⟨hmem trainRequiredCols, ?_, List.filter_sublist _, by simpa [List.isEmpty_iff] using hne⟩
    exact List.Nodup.filter _ (by decide)
  · intro m hm
    obtain ⟨rfl, hne⟩ := herr loadRequiredCols m hm
    refine ⟨hmem loadRequiredCols, ?_, List.filter_sublist _, by simpa [List.isEmpty_iff] using hne⟩
    exact List.Nodup.filter _ (by decide)

/-- C5 witness: the amended theorem at the counterexample columns — the
reported list is duplicate-free and a sublist of the declared order. -/
theorem C5_missing_columns_witness :
    (["Usage Hours", "Appliance Type"] : List String).Nodup ∧
    (["Usage Hours", "Appliance Type"] : List String).Sublist trainRequiredCols :=
  ⟨((C5_missing_columns colsC5).2.1 ["Usage Hours", "Appliance Type"] rfl).2.1,
   ((C5_missing_columns colsC5).2.1 ["Usage Hours", "Appliance Type"] rfl).2.2.1⟩

/-- C7: with a trained model and a nonempty dataset, a lookup with no
matching rows is an empty success, never an error: `predict_for_room`
of a room with no records returns `[]`, and `get_device_details` with
no exact `(room, appliance type)` match returns the empty dictionary. -/
theorem C7_empty_result (st : ModelState) (clock : Clock) (reg : ℚ × ℚ × ℚ → ℚ)
    (hm : st.hotelModel = some reg) (hdf : st.loadedTrainingDf ≠ []) :
    (∀ room : Int, (∀ r ∈ st.loadedTrainingDf, r.roomNumber ≠ room) →
      predict_for_room st clock room = .ok []) ∧
    (∀ (room : Int) (t : String),
      (∀ r ∈ st.loadedTrainingDf, ¬(r.roomNumber = room ∧ r.applianceType = t)) →
      get_device_details st clock room t = .ok none) := by
  constructor
  · intro room hroom
    have hfilter : roomRows st.loadedTrainingDf room = [] := by
      rw [roomRows, List.filter_eq_nil_iff]
      intro p hp
      simpa using hroom p.2 (snd_mem_of_mem_enum hp)
    rw [predict_for_room, hm]
    simp [List.isEmpty_iff, hdf, hfilter]
  · intro room t hmatch
    have hfind : st.loadedTrainingDf.enum.find? (fun p =>
        p.2.roomNumber == room && p.2.applianceType == t) = none := by
      rw [List.find?_eq_none]
      intro p hp
      simpa using hmatch p.2 (snd_mem_of_mem_enum hp)
    rw [get_device_details, hm]
    simp [List.isEmpty_iff, hdf, hfind]

/-- Single-row state used for the C7 witness. -/
def rowC7 : Row :=
  { roomNumber := 101, applianceType := "TV", lastMaintenanceDate := "01/01/2023",
    usageHours := 500, avgDailyUsage := 2, deviceYear := 2020,
    status := some "Working", warrantyYear := some 2025 }

/-- State used for the C7 witness. -/
def stC7 : ModelState :=
  { hotelModel := some fun _ => 10, loadedTrainingDf := [rowC7],
    loadedFilePath := some "FairField.csv" }

/-- C7 witness: a room with no records and an unmatched device key on a
concrete one-row state both yield empty successes. -/
theorem C7_empty_result_witness :
    predict_for_room stC7 ⟨19723, 2024⟩ 999 = .ok [] ∧
    get_device_details stC7 ⟨19723, 2024⟩ 101 "Fridge" = .ok none :=
  ⟨(C7_empty_result stC7 ⟨19723, 2024⟩ _ rfl (by decide)).1 999 (by decide),
   (C7_empty_result stC7 ⟨19723, 2024⟩ _ rfl (by decide)).2 101 "Fridge" (by decide)⟩

/-- C10: with a trained model and a nonempty dataset but no hotel
dataset ever selected via `load_hotel_data` (so `loaded_file_path` was
never assigned), `get_dashboard_insights` raises `AttributeError`
while building its result instead of returning the statistics. -/
theorem C10_dashboard_attribute_error (st : ModelState) (clock : Clock)
    (reg : ℚ × ℚ × ℚ → ℚ) (hm : st.hotelModel = some reg)
    (hdf : st.loadedTrainingDf ≠ []) (hf : st.loadedFilePath = none) :
    get_dashboard_insights st clock = .error .attributeError := by
  rw [get_dashboard_insights, hm]
  simp only [List.isEmpty_iff, hf]
  rw [if_neg (by simpa [List.isEmpty_iff] using hdf)]

/-- State used for the C10 witness: trained model, nonempty data,
`loaded_file_path` never assigned. -/
def stC10 : ModelState :=
  { hotelModel := some fun _ => 10, loadedTrainingDf := [rowC7],
    loadedFilePath := none }

/-- C10 witness: the `AttributeError` at a concrete state. -/
theorem C10_dashboard_attribute_error_witness :
    get_dashboard_insights stC10 ⟨19723, 2024⟩ = .error .attributeError :=
  C10_dashboard_attribute_error stC10 ⟨19723, 2024⟩ _ rfl (by decide) rfl

/-! ### Characterizations of successful results -/

/-- A successful `predict_for_room` result is either empty or the
mapped survivors of the dedup pipeline. -/
theorem predict_ok_cases {st : ModelState} {clock : Clock} {room : Int}
    {l : List PredEntry} (h : predict_for_room st clock room = .ok l) :
    (roomRows st.loadedTrainingDf room = [] ∧ l = []) ∨ ∃ reg, st.hotelModel = some reg ∧
      l = (survivors st.loadedTrainingDf room).map (mkPredEntry reg clock) := by
  rcases hm : st.hotelModel with _ | reg
  · rw [predict_for_room, hm] at h
    exact absurd h (by simp)
  · rw [predict_for_room, hm] at h
    dsimp only at h
    by_cases hdf : st.loadedTrainingDf.isEmpty
    · rw [if_pos hdf] at h
      exact absurd h (by simp)
    · rw [if_neg hdf] at h
      by_cases hr : (roomRows st.loadedTrainingDf room).isEmpty
      · rw [if_pos hr] at h
        exact Or.inl ⟨List.isEmpty_iff.mp hr, by injection h with h; exact h.symm⟩
      · rw [if_neg hr] at h
        exact Or.inr ⟨reg, rfl, by injection h with h; exact h.symm⟩

/-- Membership in a successful `get_upcoming_maintenance_devices`
result, unpacked to the generating row and window conditions. -/
theorem mem_upcoming {st : ModelState} {clock : Clock}
    {l : List UpcomingEntry} {e : UpcomingEntry}
    (h : get_upcoming_maintenance_devices st clock = .ok l) (he : e ∈ l) :
    ∃ reg p d, st.hotelModel = some reg ∧ p ∈ st.loadedTrainingDf.enum ∧
      parseDays p.2.lastMaintenanceDate = some d ∧
      e = mkUpcomingEntry reg clock p d ∧
      clock.todayDays < nextDays reg p.2 d ∧
      nextDays reg p.2 d ≤ clock.todayDays + 182 := by
  rcases hm : st.hotelModel with _ | reg
  · rw [get_upcoming_maintenance_devices, hm] at h
    exact absurd h (by simp)
  · rw [get_upcoming_maintenance_devices, hm] at h
    dsimp only at h
    by_cases hdf : st.loadedTrainingDf.isEmpty
    · rw [if_pos hdf] at h
      exact absurd h (by simp)
    · rw [if_neg hdf] at h
      injection h with h
      obtain ⟨p, hp, hfp⟩ := List.mem_filterMap.mp (h ▸ he)
      rcases hd : parseDays p.2.lastMaintenanceDate with _ | d
      · rw [hd] at hfp; exact absurd hfp (by simp)
      · rw [hd] at hfp
        dsimp only at hfp
        by_cases hcond : clock.todayDays < nextDays reg p.2 d ∧
            nextDays reg p.2 d ≤ clock.todayDays + 182
        · rw [if_pos hcond] at hfp
          exact ⟨reg, p, d, rfl, hp, hd, by injection hfp with h; exact h.symm,
            hcond.1, hcond.2⟩
        · rw [if_neg hcond] at hfp
          exact absurd hfp (by simp)

/-- Membership in a successful `get_current_week_maintenance_devices`
result, unpacked to the generating row and week-window condition. -/
theorem mem_weekly {st : ModelState} {clock : Clock}
    {l : List UpcomingEntry} {e : UpcomingEntry}
    (h : get_current_week_maintenance_devices st clock = .ok l) (he : e ∈ l) :
    ∃ reg p d, st.hotelModel = some reg ∧ p ∈ st.loadedTrainingDf.enum ∧
      parseDays p.2.lastMaintenanceDate = some d ∧
      e = mkUpcomingEntry reg clock p d ∧
      clock.todayDays - weekdayOf clock.todayDays ≤ nextDays reg p.2 d ∧
      nextDays reg p.2 d ≤ clock.todayDays - weekdayOf clock.todayDays + 6 := by
  rcases hm : st.hotelModel with _ | reg
  · rw [get_current_week_maintenance_devices, hm] at h
    exact absurd h (by simp)
  · rw [get_current_week_maintenance_devices, hm] at h
    dsimp only at h
    by_cases hdf : st.loadedTrainingDf.isEmpty
    · rw [if_pos hdf] at h
      exact absurd h (by simp)
    · rw [if_neg hdf] at h
      injection h with h
      obtain ⟨p, hp, hfp⟩ := List.mem_filterMap.mp (h ▸ he)
      rcases hd : parseDays p.2.lastMaintenanceDate with _ | d
      · rw [hd] at hfp; exact absurd hfp (by simp)
      · rw [hd] at hfp
        dsimp only at hfp
        by_cases hcond : clock.todayDays - weekdayOf clock.todayDays ≤ nextDays reg p.2 d ∧
            nextDays reg p.2 d ≤ clock.todayDays - weekdayOf clock.todayDays + 6
        · rw [if_pos hcond] at hfp
          exact ⟨reg, p, d, rfl, hp, hd, by injection hfp with h; exact h.symm,
            hcond.1, hcond.2⟩
        · rw [if_neg hcond] at hfp
          exact absurd hfp (by simp)

/-- A successful dashboard result determines the model, the loaded-file
path, and the statistics fields in terms of the loaded DataFrame. -/
theorem dashboard_ok_spec {st : ModelState} {clock : Clock} {d : DashboardData}
    (h : get_dashboard_insights st clock = .ok (.data d)) :
    ∃ reg, st.hotelModel = some reg ∧
      d.pending = st.loadedTrainingDf.enum.filterMap (pendingStep reg clock) ∧
      d.totalDevices = total_devices_of st.loadedTrainingDf ∧
      d.dueMaintenance = d.pending.length := by
  rcases hm : st.hotelModel with _ | reg
  · rw [get_dashboard_insights, hm] at h
    exact absurd h (by simp)
  · rw [get_dashboard_insights, hm] at h
    dsimp only at h
    by_cases hdf : st.loadedTrainingDf.isEmpty
    · rw [if_pos hdf] at h
      exact absurd h (by simp)
    · rw [if_neg hdf] at h
      rcases hp : st.loadedFilePath with _ | path
      · rw [hp] at h
        exact absurd h (by simp)
      · rw [hp] at h
        dsimp only at h
        injection h with h
        injection h with h
        exact ⟨reg, rfl, by rw [← h], by rw [← h], by rw [← h]⟩

/-! ### C6 -/

/-- Row used in the C6 counterexample. -/
def rowC6 : Row :=
  { roomNumber := 5, applianceType := "AC", lastMaintenanceDate := "01/01/2023",
    usageHours := 300, avgDailyUsage := 3, deviceYear := 2021,
    status := some "Working", warrantyYear := some 3000 }

/-- State used in the C6 counterexample. -/
def stC6 : ModelState :=
  { hotelModel := some fun _ => 10, loadedTrainingDf := [rowC6],
    loadedFilePath := some "Westin.csv" }

/-- The device dictionary `get_device_details stC6 ... 5 "AC"` returns:
warranty year 3000 ≥ 2025 but the flag reads `"Yes"`, not `"yes"`. -/
def infoC6 : DeviceInfo :=
  { roomNo := 5, deviceId := 1, deviceName := "AC", issueReported := "Working",
    underWarranty := "Yes", warrantyYearTill := some 3000,
    prevMaintDays := some 19358, nextMaintDays := some 19368 }

/-- C6 counterexample: for a device under warranty, `get_device_details`
reports the warranty flag as `"Yes"`, not the string `"yes"` the claim
asserts for both operations. -/
theorem C6_counterexample :
    get_device_details stC6 ⟨19723, 2025⟩ 5 "AC" = .ok (some infoC6) ∧
    warrantyOk ⟨19723, 2025⟩ infoC6.warrantyYearTill = true ∧
    infoC6.underWarranty ≠ "yes" := by
  exact ⟨rfl, rfl, by decide⟩

/-- C6 (amended): `predict_for_room` reports the warranty flag as
`"yes"`/`"no"` and `get_device_details` as `"Yes"`/`"No"` (capitalized),
in both cases exactly when the record's warranty year is present and
≥ the current calendar year. -/
theorem C6_warranty_flag (st : ModelState) (clock : Clock) :
    (∀ (room : Int) (l : List PredEntry), predict_for_room st clock room = .ok l →
      ∀ e ∈ l, e.underWarranty =
        if warrantyOk clock e.warrantyYearTill then "yes" else "no") ∧
    (∀ (room : Int) (t : String) (info : DeviceInfo),
      get_device_details st clock room t = .ok (some info) →
      info.underWarranty =
        if warrantyOk clock info.warrantyYearTill then "Yes" else "No") ∧
    (∀ w : Option Int, warrantyOk clock w = true ↔
      ∃ n, w = some n ∧ clock.currentYear ≤ n) := by
  refine ⟨?_, ?_, ?_⟩
  · intro room l h e he
    rcases predict_ok_cases h with ⟨_, rfl⟩ | ⟨reg, _, rfl⟩
    · cases he
    · obtain ⟨p, _, rfl⟩ := List.mem_map.mp he
      simp only [mkPredEntry]
  · intro room t info h
    rcases hm : st.hotelModel with _ | reg
    · rw [get_device_details, hm] at h
      dsimp only at h
      by_cases hdf : st.loadedTrainingDf.isEmpty
      · rw [if_pos hdf] at h; exact absurd h (by simp)
      · rw [if_neg hdf] at h; exact absurd h (by simp)
    · rw [get_device_details, hm] at h
      dsimp only at h
      by_cases hdf : st.loadedTrainingDf.isEmpty
      · rw [if_pos hdf] at h; exact absurd h (by simp)
      · rw [if_neg hdf] at h
        rcases hfind : st.loadedTrainingDf.enum.find? (fun p =>
            p.2.roomNumber == room && p.2.applianceType == t) with _ | ir
        · rw [hfind] at h; exact absurd h (by simp)
        · rw [hfind] at h
          obtain ⟨i, r⟩ := ir
          dsimp only at h
          injection h with h
          injection h with h
          rw [← h]
  · intro w
    cases w <;> simp [warrantyOk]

/-- C6 witness: the amended flag behaviour of `get_device_details` at
the concrete counterexample state. -/
theorem C6_warranty_flag_witness :
    infoC6.underWarranty =
      if warrantyOk ⟨19723, 2025⟩ infoC6.warrantyYearTill then "Yes" else "No" :=
  (C6_warranty_flag stC6 ⟨19723, 2025⟩).2.1 5 "AC" infoC6 rfl

/-! ### C8 -/

/-- C8: every `predictedDaysSinceMaintenance` value reported by
`predict_for_room`, `get_upcoming_maintenance_devices` and
`get_current_week_maintenance_devices` is ≥ 0: negative regressor
output is clamped to zero before rounding and use. -/
theorem C8_nonneg_prediction (st : ModelState) (clock : Clock) :
    (∀ (room : Int) (l : List PredEntry),
      predict_for_room st clock room = .ok l → ∀ e ∈ l, 0 ≤ e.predicted) ∧
    (∀ l : List UpcomingEntry,
      get_upcoming_maintenance_devices st clock = .ok l → ∀ e ∈ l, 0 ≤ e.predicted) ∧
    (∀ l : List UpcomingEntry,
      get_current_week_maintenance_devices st clock = .ok l → ∀ e ∈ l, 0 ≤ e.predicted) := by
  refine ⟨?_, ?_, ?_⟩
  · intro room l h e he
    rcases predict_ok_cases h with ⟨_, rfl⟩ | ⟨reg, _, rfl⟩
    · cases he
    · obtain ⟨p, _, rfl⟩ := List.mem_map.mp he
      simpa only [mkPredEntry] using pyRound2_nonneg (clampedPred_nonneg reg p.1.2)
  · intro l h e he
    obtain ⟨reg, p, d, _, _, _, rfl, _, _⟩ := mem_upcoming h he
    simpa only [mkUpcomingEntry] using pyRound2_nonneg (clampedPred_nonneg reg p.2)
  · intro l h e he
    obtain ⟨reg, p, d, _, _, _, rfl, _, _⟩ := mem_weekly h he
    simpa only [mkUpcomingEntry] using pyRound2_nonneg (clampedPred_nonneg reg p.2)

/-- State with a regressor that outputs a negative value, for the C8
witness. -/
def stC8 : ModelState :=
  { hotelModel := some fun _ => -5, loadedTrainingDf := [rowC7],
    loadedFilePath := some "FairField.csv" }

/-- C8 witness: with a regressor returning −5, the reported prediction
for the single room-101 device is still ≥ 0. -/
theorem C8_nonneg_prediction_witness :
    0 ≤ (PredEntry.mk 1 101 "TV" "Working" "yes" (some 2025) (some 19358) 0
      (some 19358)).predicted :=
  (C8_nonneg_prediction stC8 ⟨19723, 2024⟩).1 101
    [PredEntry.mk 1 101 "TV" "Working" "yes" (some 2025) (some 19358) 0 (some 19358)]
    (by decide) _ (List.mem_singleton.mpr rfl)

/-- Membership in the room filter. -/
theorem mem_roomRows {df : List Row} {room : Int} {p : Nat × Row} :
    p ∈ roomRows df room ↔ p ∈ df.enum ∧ p.2.roomNumber = room := by
  simp [roomRows, List.mem_filter]

/-- C9: the dashboard's `total_devices` equals the number of distinct
`(room number, appliance type)` pairs of the loaded dataset, and adding
a duplicate historical row for an existing pair leaves it unchanged. -/
theorem C9_total_devices (st : ModelState) (clock : Clock) (d : DashboardData)
    (hd : get_dashboard_insights st clock = .ok (.data d)) :
    d.totalDevices =
      (st.loadedTrainingDf.map fun r => (r.roomNumber, r.applianceType)).toFinset.card ∧
    d.totalDevices = total_devices_of st.loadedTrainingDf ∧
    ∀ r : Row,
      (r.roomNumber, r.applianceType) ∈
        st.loadedTrainingDf.map (fun r' => (r'.roomNumber, r'.applianceType)) →
      total_devices_of (st.loadedTrainingDf ++ [r]) = total_devices_of st.loadedTrainingDf := by
  obtain ⟨reg, hm, hpend, htot, hdue⟩ := dashboard_ok_spec hd
  have hcard : ∀ df : List Row, total_devices_of df =
      (df.map fun r => (r.roomNumber, r.applianceType)).toFinset.card := by
    intro df
    rw [total_devices_of, length_dedupKeepFirst]
    simp
  refine ⟨by rw [htot, hcard], htot, ?_⟩
  intro r hr
  rw [hcard, hcard, List.map_append, List.toFinset_append]
  congr 1
  simp only [List.map_cons, List.map_nil, List.toFinset_cons, List.toFinset_nil,
    insert_emptyc_eq]
  exact Finset.union_eq_left.mpr (by simpa using List.mem_toFinset.mpr hr)

/-- Two-row state with a duplicated `(2000, "TV")` device, for the C9
witness. -/
def stC9 : ModelState :=
  { hotelModel := some fun _ => 10
    loadedTrainingDf :=
      [{ roomNumber := 2000, applianceType := "TV", lastMaintenanceDate := "01/01/2023",
         usageHours := 500, avgDailyUsage := 2, deviceYear := 2020,
         status := some "Working", warrantyYear := some 2025 },
       { roomNumber := 2000, applianceType := "TV", lastMaintenanceDate := "02/01/2023",
         usageHours := 600, avgDailyUsage := 3, deviceYear := 2020,
         status := some "Working", warrantyYear := some 2025 }]
    loadedFilePath := some "FairField.csv" }

/-- The dashboard data of `stC9`: one distinct device from two rows. -/
def dC9 : DashboardData :=
  { totalDevices := 1, running := 2, down := 0, dueMaintenance := 2,
    underMaintenance := 0,
    pending := [⟨2000, 1, "TV", 19368⟩, ⟨2000, 2, "TV", 19399⟩],
    loadedDataFile := "FairField.csv" }

/-- C9 witness: on the duplicated two-row state, `total_devices` is the
distinct-pair count and stays unchanged when a third duplicate row is
appended. -/
theorem C9_total_devices_witness :
    dC9.totalDevices =
      (stC9.loadedTrainingDf.map fun r => (r.roomNumber, r.applianceType)).toFinset.card ∧
    total_devices_of (stC9.loadedTrainingDf ++
        [{ roomNumber := 2000, applianceType := "TV", lastMaintenanceDate := "03/01/2023",
           usageHours := 700, avgDailyUsage := 4, deviceYear := 2020,
           status := some "Working", warrantyYear := some 2025 }]) =
      total_devices_of stC9.loadedTrainingDf :=
  ⟨(C9_total_devices stC9 ⟨19723, 2024⟩ dC9 (by decide)).1,
   (C9_total_devices stC9 ⟨19723, 2024⟩ dC9 (by decide)).2.2 _ (by decide)⟩

/-- C3: a row whose computed next-maintenance date equals today is
appended to the dashboard's pending (due) list and never appears in the
6-month upcoming view. -/
theorem C3_due_today (st : ModelState) (clock : Clock) (reg : ℚ × ℚ × ℚ → ℚ)
    (i : Nat) (r : Row) (p : Int) (d : DashboardData) (ups : List UpcomingEntry)
    (hm : st.hotelModel = some reg)
    (hrow : (i, r) ∈ st.loadedTrainingDf.enum)
    (hp : parseDays r.lastMaintenanceDate = some p)
    (heq : nextDays reg r p = clock.todayDays)
    (hd : get_dashboard_insights st clock = .ok (.data d))
    (hu : get_upcoming_maintenance_devices st clock = .ok ups) :
    (⟨r.roomNumber, i + 1, r.applianceType, clock.todayDays⟩ : PendingEntry) ∈ d.pending ∧
    ∀ u ∈ ups, u.deviceId ≠ i + 1 := by
  obtain ⟨reg', hm', hpend, _, _⟩ := dashboard_ok_spec hd
  rw [hm] at hm'
  injection hm' with hm'
  subst hm'
  constructor
  · rw [hpend]
    refine List.mem_filterMap.mpr ⟨(i, r), hrow, ?_⟩
    simp only [pendingStep, hp]
    rw [heq, if_pos (le_refl _)]
  · intro u hu' hid
    obtain ⟨reg2, q, dq, hm2, hq, hdq, hueq, hlt, _⟩ := mem_upcoming hu hu'
    rw [hm] at hm2
    injection hm2 with hm2
    subst hm2
    have hudev : u.deviceId = q.1 + 1 := by
      rw [hueq]
      simp [mkUpcomingEntry]
    rw [hudev] at hid
    have hqi : q.1 = i := by omega
    have hq2 : q.2 = r := by
      have hmem : (q.1, q.2) ∈ st.loadedTrainingDf.enum := by simpa using hq
      rw [hqi] at hmem
      exact enum_index_inj hmem hrow
    rw [hq2, hp] at hdq
    injection hdq with hdq
    rw [hq2, ← hdq, heq] at hlt
    exact lt_irrefl _ hlt

/-- Single-row state whose computed next-maintenance date is exactly
`today = 19368`, for the C3 witness. -/
def stC3 : ModelState :=
  { hotelModel := some fun _ => 10, loadedTrainingDf := [rowC7],
    loadedFilePath := some "FairField.csv" }

/-- C3 witness: the device due exactly today is in the pending list and
the upcoming view of the same state is empty. -/
theorem C3_due_today_witness :
    (⟨101, 1, "TV", 19368⟩ : PendingEntry) ∈
      [(⟨101, 1, "TV", 19368⟩ : PendingEntry)] ∧
    ∀ u ∈ ([] : List UpcomingEntry), u.deviceId ≠ 1 := by
  have h := C3_due_today stC3 ⟨19368, 2024⟩ (fun _ => 10) 0 rowC7 19358
    (DashboardData.mk 1 1 0 1 0 [⟨101, 1, "TV", 19368⟩] "FairField.csv") []
    rfl (by decide) (by decide) (by decide) (by decide) (by decide)
  exact h

/-- A successful weekly result is exactly the filter-map of the
week-window step over the indexed DataFrame. -/
theorem weekly_ok_eq {st : ModelState} {clock : Clock} {reg : ℚ × ℚ × ℚ → ℚ}
    {l : List UpcomingEntry} (hm : st.hotelModel = some reg)
    (h : get_current_week_maintenance_devices st clock = .ok l) :
    l = st.loadedTrainingDf.enum.filterMap (fun p =>
      match parseDays p.2.lastMaintenanceDate with
      | none => none
      | some d =>
          if clock.todayDays - weekdayOf clock.todayDays ≤ nextDays reg p.2 d ∧
              nextDays reg p.2 d ≤ clock.todayDays - weekdayOf clock.todayDays + 6 then
            some (mkUpcomingEntry reg clock p d)
          else none) := by
  rw [get_current_week_maintenance_devices, hm] at h
  dsimp only at h
  by_cases hdf : st.loadedTrainingDf.isEmpty
  · rw [if_pos hdf] at h
    exact absurd h (by simp)
  · rw [if_neg hdf] at h
    injection h with h
    exact h.symm

/-- Row whose computed next-maintenance date (1970-01-05, a Monday) is
earlier in the current week than today (1970-01-07, a Wednesday). -/
def rowC4 : Row :=
  { roomNumber := 7, applianceType := "AC", lastMaintenanceDate := "01/05/1970",
    usageHours := 1, avgDailyUsage := 1, deviceYear := 2020,
    status := some "Working", warrantyYear := some 2030 }

/-- State used in the C4 counterexample. -/
def stC4 : ModelState :=
  { hotelModel := some fun _ => 0, loadedTrainingDf := [rowC4],
    loadedFilePath := some "Westin.csv" }

/-- Clock of the C4 counterexample: day 6 is Wednesday 1970-01-07. -/
def clockC4 : Clock := ⟨6, 2025⟩

/-- The weekly entry the code returns for `rowC4`. -/
def entryC4 : UpcomingEntry :=
  { roomNo := 7, deviceId := 1, deviceName := "AC", issueReported := "Working",
    underWarranty := "yes", warrantyYearTill := some 2030,
    prevMaintDays := 4, predicted := 0, nextMaintDays := 4 }

/-- C4 counterexample: the weekly view includes a device whose
next-maintenance date (day 4, Monday) is strictly before today (day 6,
Wednesday of the same week), contradicting "strictly after today". -/
theorem C4_counterexample :
    get_current_week_maintenance_devices stC4 clockC4 = .ok [entryC4] ∧
    entryC4.nextMaintDays < clockC4.todayDays :=
  ⟨by decide, by decide⟩

/-- C4 (amended): the weekly view includes a row iff its date parses
and its computed next-maintenance date falls in the current
Monday-to-Sunday week — with no comparison against today itself, so
dates of the current week on or before today are included too. -/
theorem C4_weekly_window (st : ModelState) (clock : Clock) (reg : ℚ × ℚ × ℚ → ℚ)
    (l : List UpcomingEntry) (hm : st.hotelModel = some reg)
    (hl : get_current_week_maintenance_devices st clock = .ok l) :
    (∀ u ∈ l, clock.todayDays - weekdayOf clock.todayDays ≤ u.nextMaintDays ∧
      u.nextMaintDays ≤ clock.todayDays - weekdayOf clock.todayDays + 6) ∧
    (∀ (i : Nat) (r : Row) (pd : Int), (i, r) ∈ st.loadedTrainingDf.enum →
      parseDays r.lastMaintenanceDate = some pd →
      clock.todayDays - weekdayOf clock.todayDays ≤ nextDays reg r pd →
      nextDays reg r pd ≤ clock.todayDays - weekdayOf clock.todayDays + 6 →
      ∃ u ∈ l, u.deviceId = i + 1 ∧ u.nextMaintDays = nextDays reg r pd) := by
  constructor
  · intro u hu
    obtain ⟨reg2, q, dq, hm2, hq, hdq, hueq, h1, h2⟩ := mem_weekly hl hu
    subst hueq
    exact ⟨by dsimp only [mkUpcomingEntry]; exact h1,
      by dsimp only [mkUpcomingEntry]; exact h2⟩
  · intro i r pd hrow hp h1 h2
    rw [weekly_ok_eq hm hl]
    refine ⟨mkUpcomingEntry reg clock (i, r) pd, List.mem_filterMap.mpr
      ⟨(i, r), hrow, ?_⟩, by simp [mkUpcomingEntry], by simp [mkUpcomingEntry]⟩
    simp only [hp]
    rw [if_pos ⟨h1, h2⟩]

/-- C4 witness: the amended window condition realized on the concrete
counterexample state (a Monday date on a Wednesday). -/
theorem C4_weekly_window_witness :
    ∃ u ∈ [entryC4], u.deviceId = 0 + 1 ∧
      u.nextMaintDays = nextDays (fun _ => 0) rowC4 4 :=
  (C4_weekly_window stC4 clockC4 (fun _ => 0) [entryC4] rfl (by decide)).2
    0 rowC4 4 (by decide) (by decide) (by decide) (by decide)

/-- C1: `predict_for_room` returns exactly one entry per distinct
appliance type among the room's rows; the kept row's parsed date is
maximal among all same-type rows of the room (`NaT` ranks below every
date), so a row with an unparseable date is never kept in preference to
one whose date parses. -/
theorem C1_dedup_most_recent (st : ModelState) (clock : Clock) (room : Int)
    (l : List PredEntry) (h : predict_for_room st clock room = .ok l) :
    (l.map fun e => e.deviceName).Nodup ∧
    (∀ t : String, t ∈ l.map (fun e => e.deviceName) ↔
      ∃ r ∈ st.loadedTrainingDf, r.roomNumber = room ∧ r.applianceType = t) ∧
    (∀ e ∈ l, ∃ ir : Nat × Row, ir ∈ st.loadedTrainingDf.enum ∧
      ir.2.roomNumber = room ∧ ir.2.applianceType = e.deviceName ∧
      e.prevMaintDays = parseDays ir.2.lastMaintenanceDate) ∧
    (∀ e ∈ l, ∀ r ∈ st.loadedTrainingDf, r.roomNumber = room →
      r.applianceType = e.deviceName →
      rank (parseDays r.lastMaintenanceDate) ≤ rank e.prevMaintDays) ∧
    (∀ e ∈ l, ∀ r ∈ st.loadedTrainingDf, r.roomNumber = room →
      r.applianceType = e.deviceName →
      parseDays r.lastMaintenanceDate ≠ none → e.prevMaintDays ≠ none) := by
  rcases predict_ok_cases h with ⟨hempty, rfl⟩ | ⟨reg, hm, rfl⟩
  · refine ⟨by simp, ?_, by simp, by simp, by simp⟩
    intro t
    simp only [List.map_nil, List.not_mem_nil, false_iff]
    rintro ⟨r, hr, hr2, _⟩
    obtain ⟨i, hir⟩ := exists_mem_enum_of_mem hr
    have hmem : (i, r) ∈ roomRows st.loadedTrainingDf room := mem_roomRows.mpr ⟨hir, hr2⟩
    rw [hempty] at hmem
    cases hmem
  · set dl : List Dated := (roomRows st.loadedTrainingDf room).map
      (fun p => (p, parseDays p.2.lastMaintenanceDate)) with hdl
    set sl : List Dated := List.insertionSort datedRel dl with hsl
    have hsurv : survivors st.loadedTrainingDf room
        = dedupKeepFirstAux (fun p : Dated => p.1.2.applianceType) [] sl := rfl
    have hperm : List.Perm sl dl := List.perm_insertionSort _ _
    have hsort : List.Sorted datedRel sl := List.sorted_insertionSort _ _
    have hcompose : ((fun e : PredEntry => e.deviceName) ∘ mkPredEntry reg clock)
        = fun p : Dated => p.1.2.applianceType := rfl
    have h1 : (((survivors st.loadedTrainingDf room).map (mkPredEntry reg clock)).map
        (fun e => e.deviceName)).Nodup := by
      rw [List.map_map, hcompose, hsurv]
      exact nodup_keys_dedupAux _
    have h2 : ∀ t : String,
        t ∈ ((survivors st.loadedTrainingDf room).map (mkPredEntry reg clock)).map
          (fun e => e.deviceName) ↔
        ∃ r ∈ st.loadedTrainingDf, r.roomNumber = room ∧ r.applianceType = t := by
      intro t
      rw [List.map_map, hcompose, hsurv]
      rw [key_mem_dedupAux]
      simp only [List.not_mem_nil, not_false_iff, true_and]
      constructor
      · intro ht
        obtain ⟨q, hq, hqt⟩ := List.mem_map.mp ht
        have hq' : q ∈ dl := hperm.mem_iff.mp hq
        obtain ⟨p, hp, rfl⟩ := List.mem_map.mp hq'
        have hpr := mem_roomRows.mp hp
        exact ⟨p.2, snd_mem_of_mem_enum hpr.1, hpr.2, hqt⟩
      · rintro ⟨r, hr, hr2, hr3⟩
        obtain ⟨i, hir⟩ := exists_mem_enum_of_mem hr
        refine List.mem_map.mpr ⟨((i, r), parseDays r.lastMaintenanceDate), ?_, hr3⟩
        exact hperm.mem_iff.mpr
          (List.mem_map_of_mem _ (mem_roomRows.mpr ⟨hir, hr2⟩))
    have h3 : ∀ e ∈ (survivors st.loadedTrainingDf room).map (mkPredEntry reg clock),
        ∃ ir : Nat × Row, ir ∈ st.loadedTrainingDf.enum ∧
          ir.2.roomNumber = room ∧ ir.2.applianceType = e.deviceName ∧
          e.prevMaintDays = parseDays ir.2.lastMaintenanceDate := by
      intro e he
      obtain ⟨p, hpmem, rfl⟩ := List.mem_map.mp he
      rw [hsurv] at hpmem
      have hpsl : p ∈ sl := mem_of_mem_dedupAux _ hpmem
      obtain ⟨q, hq, rfl⟩ := List.mem_map.mp (hperm.mem_iff.mp hpsl)
      have hqr := mem_roomRows.mp hq
      exact ⟨q, hqr.1, hqr.2, rfl, rfl⟩
    have h4 : ∀ e ∈ (survivors st.loadedTrainingDf room).map (mkPredEntry reg clock),
        ∀ r ∈ st.loadedTrainingDf, r.roomNumber = room →
        r.applianceType = e.deviceName →
        rank (parseDays r.lastMaintenanceDate) ≤ rank e.prevMaintDays := by
      intro e he r hr hr2 hr3
      obtain ⟨p, hpmem, rfl⟩ := List.mem_map.mp he
      rw [hsurv] at hpmem
      obtain ⟨i, hir⟩ := exists_mem_enum_of_mem hr
      have hq : (((i, r), parseDays r.lastMaintenanceDate) : Dated) ∈ sl :=
        hperm.mem_iff.mpr
          (List.mem_map_of_mem _ (mem_roomRows.mpr ⟨hir, hr2⟩))
      have hkey : (fun p : Dated => p.1.2.applianceType)
          (((i, r), parseDays r.lastMaintenanceDate) : Dated)
          = (fun p : Dated => p.1.2.applianceType) p := hr3
      rcases dedupAux_max (fun p : Dated => p.1.2.applianceType) hsort hpmem hq hkey with
        heq2 | hrel
      · subst heq2
        exact le_of_eq rfl
      · exact hrel
    refine ⟨h1, h2, h3, h4, ?_⟩
    intro e he r hr hr2 hr3 hne hcontra
    obtain ⟨x, hx⟩ := Option.ne_none_iff_exists'.mp hne
    have hle := h4 e he r hr hr2 hr3
    rw [hx, hcontra] at hle
    simp only [rank] at hle
    exact WithBot.not_coe_le_bot _ hle

/-- Room-2000 state with three "TV" rows (one with the latest date
2024-05-06, one older, one unparseable) and one "AC" row with an
unparseable date, for the C1 witness. -/
def stC1 : ModelState :=
  { hotelModel := some fun _ => 10
    loadedTrainingDf :=
      [{ roomNumber := 2000, applianceType := "TV", lastMaintenanceDate := "01/01/2023",
         usageHours := 500, avgDailyUsage := 2, deviceYear := 2020,
         status := some "Working", warrantyYear := some 2025 },
       { roomNumber := 2000, applianceType := "TV", lastMaintenanceDate := "05/06/2024",
         usageHours := 600, avgDailyUsage := 3, deviceYear := 2021,
         status := some "Working", warrantyYear := some 2026 },
       { roomNumber := 2000, applianceType := "TV", lastMaintenanceDate := "garbage",
         usageHours := 700, avgDailyUsage := 4, deviceYear := 2022,
         status := none, warrantyYear := none },
       { roomNumber := 2000, applianceType := "AC", lastMaintenanceDate := "not-a-date",
         usageHours := 100, avgDailyUsage := 1, deviceYear := 2019,
         status := some "Down", warrantyYear := some 2020 }]
    loadedFilePath := some "FairField.csv" }

/-- C1 witness: on `stC1` the result keeps one entry per appliance type
(the 2024-05-06 "TV" row wins; the all-unparseable "AC" keeps `NaT`),
with no duplicated device name. -/
theorem C1_dedup_most_recent_witness :
    (([⟨2, 2000, "TV", "Working", "yes", some 2026, some 19849, 10, some 19859⟩,
       ⟨4, 2000, "AC", "Down", "no", some 2020, none, 10, none⟩] :
      List PredEntry).map fun e => e.deviceName).Nodup :=
  (C1_dedup_most_recent stC1 ⟨19723, 2024⟩ 2000 _ (by decide)).1

end PredMaint
